import Mathlib

/-!
Verification of the data-shaping and pipeline behavior of the fine-tuning
notebook `fine_tune.ipynb`.

The notebook loads a pretrained causal language model, attaches LoRA adapter
layers, builds a small text dataset from a CSV spreadsheet, trains, and saves
the adapter weights.  The development below embeds:

* the Dataset Builder cell: topic detection over column names, row-wise
  concatenation of prompt and output columns with a fixed end-of-turn marker,
  and the train/validation split;
* the sequential pipeline of notebook cells acting on the tokenizer, the
  model parameters and the `use_cache` flags.

Python strings are modelled as Lean `String`s (sequences of characters);
a pandas `DataFrame` is an ordered list of named string columns; a failed
column lookup (`KeyError`) is modelled with `Except`.
-/

namespace FineTune

/-- The fixed end-of-turn marker appended to every training string
(Dataset Setup cell). -/
def eotId : String := "<|eot_id|>"

/-- The column-name tag of output columns, used by the regular expression
`inference_output .*` of the topic scan. -/
def outputTag : String := "inference_output "

/-- The column-name tag of prompt columns. -/
def promptTag : String := "full_prompt "

/-- A tabular file as loaded by `pd.read_csv`: an ordered list of named
string columns. -/
structure DataFrame where
  cols : List (String × List String)
deriving DecidableEq

/-- All columns of the table have `n` rows (every pandas dataframe has a
common row count across columns). -/
def DataFrame.HasRows (df : DataFrame) (n : Nat) : Prop :=
  ∀ c ∈ df.cols, c.snd.length = n

instance (df : DataFrame) (n : Nat) : Decidable (df.HasRows n) := by
  unfold DataFrame.HasRows; infer_instance

/-- `re.match "inference_output .*" column` succeeds exactly when the column
name starts with the tag: the regular expression is anchored at the start
and `.*` can match the empty string. -/
def matchesOutputCol (c : String) : Bool :=
  List.isPrefixOf outputTag.data c.data

/-- `column.removeprefix "inference_output "`, applied only to matching
columns, for which the tag is an actual character-level leading segment. -/
def removeTag (c : String) : String :=
  ⟨c.data.drop outputTag.data.length⟩

/-- The list comprehension
`[column.removeprefix "inference_output " for column in edited_df.columns
  if re.match("inference_output .*", column)]`. -/
def topicsOf (df : DataFrame) : List String :=
  ((df.cols.map Prod.fst).filter matchesOutputCol).map removeTag

/-- Column lookup `edited_df[name]`: the first column with that name, or
`none` (pandas raises `KeyError`) when absent. -/
def getCol (df : DataFrame) (name : String) : Option (List String) :=
  (df.cols.find? (fun p => p.fst == name)).map Prod.snd

/-- One topic's contribution: the expression
`edited_df[f"full_prompt {TOPIC}"] + edited_df[f"inference_output {TOPIC}"]
 + "<|eot_id|>"` (with `TOPIC` interpolated), which looks up the prompt
column first, then the output column, then concatenates row-wise.  A missing
column is a `KeyError`. -/
def topicTexts (df : DataFrame) (t : String) : Except String (List String) :=
  match getCol df (promptTag ++ t) with
  | none => Except.error ("KeyError: " ++ (promptTag ++ t))
  | some ps =>
    match getCol df (outputTag ++ t) with
    | none => Except.error ("KeyError: " ++ (outputTag ++ t))
    | some os => Except.ok (List.zipWith (fun p o => p ++ o ++ eotId) ps os)

/-- The loop `full_text = []; for topic in topics: full_text.extend(...)`,
which appends each topic's row strings in topic order into one flat list. -/
def buildTexts (df : DataFrame) : List String → Except String (List String)
  | [] => Except.ok []
  | t :: ts =>
    match topicTexts df t with
    | Except.error e => Except.error e
    | Except.ok rows =>
      match buildTexts df ts with
      | Except.error e => Except.error e
      | Except.ok rest => Except.ok (rows ++ rest)

/-- The complete `full_text` value of the Dataset Setup cell. -/
def fullText (df : DataFrame) : Except String (List String) :=
  buildTexts df (topicsOf df)

/-- A column found by `getCol` is a column of the table. -/
theorem getCol_mem {df : DataFrame} {name : String} {xs : List String}
    (h : getCol df name = some xs) : ∃ nm, (nm, xs) ∈ df.cols := by
  unfold getCol at h
  rcases Option.map_eq_some'.mp h with ⟨p, hp, hsnd⟩
  exact ⟨p.fst, by
    have hmem := List.mem_of_find?_eq_some hp
    rw [← hsnd]
    exact hmem⟩

/-- In a table with `n` rows, every column found by `getCol` has `n`
entries. -/
theorem length_of_getCol {df : DataFrame} {n : Nat} {name : String}
    {xs : List String} (hw : df.HasRows n) (h : getCol df name = some xs) :
    xs.length = n := by
  rcases getCol_mem h with ⟨nm, hmem⟩
  exact hw (nm, xs) hmem

theorem buildTexts_length {df : DataFrame} {n : Nat} (hw : df.HasRows n) :
    ∀ ts : List String,
      (∀ t ∈ ts, (getCol df (promptTag ++ t)).isSome = true) →
      (∀ t ∈ ts, (getCol df (outputTag ++ t)).isSome = true) →
      ∃ l, buildTexts df ts = Except.ok l ∧
        l.length = (ts.map (fun _ => n)).sum := by
  intro ts
  induction ts with
  | nil => exact fun _ _ => ⟨[], rfl, rfl⟩
  | cons t ts ih =>
    intro hp ho
    rcases Option.isSome_iff_exists.mp (hp t (List.mem_cons_self t ts)) with ⟨ps, hps⟩
    rcases Option.isSome_iff_exists.mp (ho t (List.mem_cons_self t ts)) with ⟨os, hos⟩
    rcases ih (fun u hu => hp u (List.mem_cons_of_mem t hu))
      (fun u hu => ho u (List.mem_cons_of_mem t hu)) with ⟨rest, hrest, hlen⟩
    refine ⟨List.zipWith (fun p o => p ++ o ++ eotId) ps os ++ rest, ?_, ?_⟩
    · simp [buildTexts, topicTexts, hps, hos, hrest]
    · have h1 : ps.length = n := length_of_getCol hw hps
      have h2 : os.length = n := length_of_getCol hw hos
      simp [List.length_zipWith, h1, h2, hlen]

/-- C1: for every input table with a non-empty set of topics whose columns
match the naming convention (a `full_prompt` and an `inference_output` column
per topic), the Dataset Builder produces a flat sequence of training strings
whose length equals the sum over topics of the row count contributed by that
topic (each topic of an `n`-row table contributes `n` strings). -/
theorem fullText_length (df : DataFrame) (n : Nat) (hw : df.HasRows n)
    (hne : topicsOf df ≠ [])
    (hp : ∀ t ∈ topicsOf df, (getCol df (promptTag ++ t)).isSome = true)
    (ho : ∀ t ∈ topicsOf df, (getCol df (outputTag ++ t)).isSome = true) :
    ∃ l, fullText df = Except.ok l ∧
      l.length = ((topicsOf df).map (fun _ => n)).sum :=
  buildTexts_length hw (topicsOf df) hp ho

/-- A two-topic example table: three rows, topics Rice and Owls. -/
def dfTwoTopics : DataFrame :=
  ⟨[("full_prompt Rice", ["pa", "pb", "pc"]),
    ("inference_output Rice", ["oa", "ob", "oc"]),
    ("full_prompt Owls", ["qa", "qb", "qc"]),
    ("inference_output Owls", ["ra", "rb", "rc"])]⟩

theorem fullText_length_witness :
    ∃ l, fullText dfTwoTopics = Except.ok l ∧
      l.length = ((topicsOf dfTwoTopics).map (fun _ => 3)).sum :=
  fullText_length dfTwoTopics 3 (by decide) (by decide) (by decide) (by decide)

/-- C2: for every row of every matched topic, the training string produced
for that row is the exact character-for-character concatenation of the row's
prompt field, its output field, and the end-of-turn marker `<|eot_id|>`,
with nothing inserted between or around them. -/
theorem topicTexts_row (df : DataFrame) (t : String) (ps os l : List String)
    (ht : t ∈ topicsOf df)
    (hp : getCol df (promptTag ++ t) = some ps)
    (ho : getCol df (outputTag ++ t) = some os)
    (hl : topicTexts df t = Except.ok l)
    (i : Nat) (h1 : i < ps.length) (h2 : i < os.length) :
    l[i]? = some (ps[i] ++ os[i] ++ eotId) := by
  unfold topicTexts at hl
  rw [hp, ho] at hl
  cases hl
  rw [List.getElem?_eq_getElem (by rw [List.length_zipWith]; omega)]
  simp [List.getElem_zipWith]

theorem topicTexts_row_witness :
    topicTexts dfTwoTopics "Rice" =
      Except.ok ["paoa<|eot_id|>", "pbob<|eot_id|>", "pcoc<|eot_id|>"] ∧
    (["paoa<|eot_id|>", "pbob<|eot_id|>", "pcoc<|eot_id|>"] :
      List String)[1]? = some ("pb" ++ "ob" ++ eotId) :=
  ⟨rfl,
   topicTexts_row dfTwoTopics "Rice" ["pa", "pb", "pc"] ["oa", "ob", "oc"]
     ["paoa<|eot_id|>", "pbob<|eot_id|>", "pcoc<|eot_id|>"]
     (by decide) rfl rfl rfl 1 (by decide) (by decide)⟩

/-- `full_prompt` names never match the output-column scan: the two tags
differ at their first character. -/
theorem matchesOutputCol_promptCol (T : String) :
    matchesOutputCol (promptTag ++ T) = false := by
  unfold matchesOutputCol
  rw [String.data_append]
  simp [outputTag, promptTag, List.isPrefixOf]

/-- C5: for every input table in which no column matches the naming
convention (neither tag is a leading segment of any column name), the
Dataset Builder completes and the flat sequence of training strings is
empty. -/
theorem fullText_empty_of_noMatch (df : DataFrame)
    (h : ∀ c ∈ df.cols, matchesOutputCol c.fst = false) :
    fullText df = Except.ok [] := by
  have htopics : topicsOf df = [] := by
    unfold topicsOf
    rw [List.filter_eq_nil_iff.mpr, List.map_nil]
    intro c hc
    rcases List.mem_map.mp hc with ⟨pr, hpr, rfl⟩
    simp [h pr hpr]
  rw [fullText, htopics]
  rfl

/-- A table whose columns match neither naming convention. -/
def dfNoMatch : DataFrame :=
  ⟨[("question", ["q1", "q2"]), ("answer", ["a1", "a2"])]⟩

theorem fullText_empty_of_noMatch_witness :
    fullText dfNoMatch = Except.ok [] :=
  fullText_empty_of_noMatch dfNoMatch (by decide)

/-- A second table with no matching column, for the fail-fast claim: the
builder returns the empty flat sequence and raises no error. -/
def dfUnguarded : DataFrame :=
  ⟨[("prompt", ["x1"]), ("completion", ["y1"])]⟩

/-- C4 (code-bug evidence): on a table with zero columns matching the
`inference_output` naming convention the builder silently completes with an
empty flat sequence; no explicit error is raised anywhere in the cell. -/
theorem fullText_noMatch_silent : fullText dfUnguarded = Except.ok [] := rfl

/-- The index split produced by the dataset library. -/
structure SplitResult where
  trainIdx : List Nat
  testIdx : List Nat
deriving DecidableEq

/-- Modelled from the spec: the external `dataset.train_test_split(0.2)`
library call (the `datasets` library itself is not part of this repository).
The spec fixes a 20 percent holdout fraction with consistent rounding
(20 examples give 4 validation and 16 train examples); the library rounds the
test count up, takes the test indices from the front of a random permutation
of the row indices and the train indices from the rest, and raises an error
when either side of the split would be empty.  The permutation is passed in
as a parameter. -/
def trainTestSplit (n : Nat) (perm : List Nat) : Except String SplitResult :=
  let nTest := (n + 4) / 5
  let nTrain := n - nTest
  if nTest == 0 then Except.error "the resulting test set will be empty"
  else if nTrain == 0 then Except.error "the resulting train set will be empty"
  else Except.ok ⟨(perm.drop nTest).take nTrain, perm.take nTest⟩

/-- C3: for every built dataset, the train and validation index lists of the
split are disjoint, their sizes sum to the total example count, and the
validation size is the 20 percent holdout count of the total (rounded up; in
particular 20 examples give 4 validation and 16 train examples, as the
witness instantiates). -/
theorem trainTestSplit_partitions (n : Nat) (perm : List Nat)
    (s : SplitResult) (hperm : perm.Perm (List.range n))
    (hs : trainTestSplit n perm = Except.ok s) :
    s.trainIdx.Disjoint s.testIdx ∧
    s.trainIdx.length + s.testIdx.length = n ∧
    s.testIdx.length = (n + 4) / 5 := by
  unfold trainTestSplit at hs
  by_cases h0 : (n + 4) / 5 = 0
  · simp [h0] at hs
  by_cases h1 : n - (n + 4) / 5 = 0
  · simp [h0, h1] at hs
  simp only [beq_iff_eq, h0, h1, if_false] at hs
  cases hs
  have hlen : perm.length = n := by
    rw [hperm.length_eq, List.length_range]
  have hle : (n + 4) / 5 ≤ n := by omega
  have hnodup : perm.Nodup := hperm.nodup_iff.mpr (List.nodup_range n)
  have hdisj : (perm.take ((n + 4) / 5)).Disjoint (perm.drop ((n + 4) / 5)) :=
    List.disjoint_take_drop hnodup (Nat.le_refl _)
  refine ⟨?_, ?_, ?_⟩
  · intro a ha hb
    exact hdisj hb (List.take_subset _ _ ha)
  · simp only [List.length_take, List.length_drop, hlen]
    omega
  · simp only [List.length_take, hlen]
    omega

theorem trainTestSplit_partitions_witness :
    trainTestSplit 20 (List.range 20) =
      Except.ok ⟨((List.range 20).drop 4).take 16, (List.range 20).take 4⟩ ∧
    (((List.range 20).drop 4).take 16).Disjoint ((List.range 20).take 4) ∧
    (((List.range 20).drop 4).take 16).length +
      ((List.range 20).take 4).length = 20 ∧
    ((List.range 20).take 4).length = 4 ∧
    (((List.range 20).drop 4).take 16).length = 16 := by
  have h := trainTestSplit_partitions 20 (List.range 20)
    ⟨((List.range 20).drop 4).take 16, (List.range 20).take 4⟩
    (List.Perm.refl _) rfl
  exact ⟨rfl, h.1, h.2.1, by decide, by decide⟩

/-- A named model parameter: either a frozen base weight or a LoRA adapter
weight, with its trainability flag (`requires_grad`). -/
structure Param where
  pname : String
  isAdapter : Bool
  requiresGrad : Bool
deriving DecidableEq

/-- The tokenizer attributes the notebook touches. -/
structure Tokenizer where
  padToken : Option String
  eosToken : Option String
deriving DecidableEq

/-- The mutable state the notebook cells act on: the tokenizer, the model
parameter list, and the `use_cache` flag of the base model configuration and
of the wrapped (PEFT) model configuration. -/
structure PipelineState where
  tok : Tokenizer
  params : List Param
  baseUseCache : Bool
  wrappedUseCache : Bool
deriving DecidableEq

/-- The primitive state-changing actions of the notebook cells.
`setPadToEos` is the assignment `tokenizer.pad_token = tokenizer.eos_token`;
`attachAdapter` is the `get_peft_model` call; the cache setters are the
`config.use_cache` assignments of the training cell; `trainRun` is
`trainer.train()`; `saveAdapter` is `save_pretrained`. -/
inductive Step where
  | setPadToEos
  | attachAdapter (adapters : List String)
  | setBaseUseCache (b : Bool)
  | setWrappedUseCache (b : Bool)
  | trainRun
  | saveAdapter
deriving DecidableEq

/-- Freezing a base parameter clears its trainability flag. -/
def freezeParam (p : Param) : Param :=
  { p with requiresGrad := false }

/-- Modelled from the spec: the effect of each notebook action on the state.
The tokenizer assignment and the `use_cache` assignments are the notebook's
own statements; the `attachAdapter` case models the external
`get_peft_model` library call, which per the spec freezes every base weight
and adds adapter parameters that are trainable.  Training and saving do not
change the tokenizer, the parameter flags or the cache flags. -/
def applyStep (s : PipelineState) : Step → PipelineState
  | Step.setPadToEos =>
    { s with tok := { s.tok with padToken := s.tok.eosToken } }
  | Step.attachAdapter adapters =>
    { s with params := s.params.map freezeParam ++
        adapters.map (fun nm => ⟨nm, true, true⟩) }
  | Step.setBaseUseCache b => { s with baseUseCache := b }
  | Step.setWrappedUseCache b => { s with wrappedUseCache := b }
  | Step.trainRun => s
  | Step.saveAdapter => s

/-- Running a sequence of actions from a state. -/
def runSteps (s : PipelineState) (steps : List Step) : PipelineState :=
  steps.foldl applyStep s

/-- The notebook's cell order: load the model and set the padding token,
attach the LoRA adapter, disable both `use_cache` flags, train, re-enable
both flags, save the adapter. -/
def notebookSteps (adapters : List String) : List Step :=
  [Step.setPadToEos, Step.attachAdapter adapters,
   Step.setBaseUseCache false, Step.setWrappedUseCache false,
   Step.trainRun,
   Step.setBaseUseCache true, Step.setWrappedUseCache true,
   Step.saveAdapter]

/-- After attachment, a parameter is trainable exactly when it is an adapter
parameter, provided the base parameters were all non-adapter. -/
theorem attachParams_trainable (base : List Param) (adapters : List String)
    (hb : ∀ p ∈ base, p.isAdapter = false) :
    ∀ p ∈ base.map freezeParam ++
        adapters.map (fun nm => (⟨nm, true, true⟩ : Param)),
      (p.requiresGrad = true ↔ p.isAdapter = true) := by
  intro p hp
  rcases List.mem_append.mp hp with h | h
  · rcases List.mem_map.mp h with ⟨q, hq, rfl⟩
    simp [freezeParam, hb q hq]
  · rcases List.mem_map.mp h with ⟨nm, hnm, rfl⟩
    simp

/-- C6: from the adapter-attachment step onward (at every later point of the
notebook's cell sequence), only adapter parameters are trainable and every
base weight is non-trainable. -/
theorem only_adapters_trainable (init : PipelineState)
    (adapters : List String) (i : Nat)
    (hbase : ∀ p ∈ init.params, p.isAdapter = false)
    (h1 : 2 ≤ i) (h2 : i ≤ (notebookSteps adapters).length) :
    ∀ p ∈ (runSteps init ((notebookSteps adapters).take i)).params,
      (p.requiresGrad = true ↔ p.isAdapter = true) := by
  have h8 : (notebookSteps adapters).length = 8 := rfl
  rw [h8] at h2
  have key := attachParams_trainable init.params adapters hbase
  interval_cases i <;>
    simpa [notebookSteps, runSteps, applyStep] using key

/-- A concrete initial state: one frozen-to-be base weight, a tokenizer with
an end-of-sequence token and no padding token, caching enabled. -/
def initState : PipelineState :=
  ⟨⟨none, some "<|end_of_text|>"⟩,
   [⟨"model.layers.0.self_attn.q_proj.weight", false, true⟩],
   true, true⟩

theorem only_adapters_trainable_witness :
    ((runSteps initState ((notebookSteps ["lora_A"]).take 2)).params.all
      (fun p => p.requiresGrad == p.isAdapter)) = true := by
  have h := only_adapters_trainable initState ["lora_A"] 2
    (by decide) (by decide) (by decide)
  rw [List.all_eq_true]
  intro p hp
  have hiff := h p hp
  revert hiff
  cases hq : p.requiresGrad <;> cases ha : p.isAdapter <;> simp

/-- C8: from the model-loading step onward (at every later point of the
notebook's cell sequence, hence before any downstream component uses the
tokenizer), the padding token of the tokenizer equals its end-of-sequence
token. -/
theorem padToken_eq_eosToken (init : PipelineState)
    (adapters : List String) (i : Nat)
    (h1 : 1 ≤ i) (h2 : i ≤ (notebookSteps adapters).length) :
    (runSteps init ((notebookSteps adapters).take i)).tok.padToken =
    (runSteps init ((notebookSteps adapters).take i)).tok.eosToken := by
  have h8 : (notebookSteps adapters).length = 8 := rfl
  rw [h8] at h2
  interval_cases i <;> simp [notebookSteps, runSteps, applyStep]

theorem padToken_eq_eosToken_witness :
    (runSteps initState ((notebookSteps ["lora_A"]).take 1)).tok.padToken =
    (runSteps initState ((notebookSteps ["lora_A"]).take 1)).tok.eosToken :=
  padToken_eq_eosToken initState ["lora_A"] 1 (by decide) (by decide)

/-- C9: at the point of the cell sequence where training runs, the
`use_cache` flag is `false` on both the base model and the wrapped model:
both flags are assigned `false` before `trainer.train()` and are re-enabled
only after it returns. -/
theorem useCache_false_during_training (init : PipelineState)
    (adapters : List String) (i : Nat)
    (h : (notebookSteps adapters)[i]? = some Step.trainRun) :
    (runSteps init ((notebookSteps adapters).take i)).baseUseCache = false ∧
    (runSteps init ((notebookSteps adapters).take i)).wrappedUseCache
      = false := by
  have hlt : i < (notebookSteps adapters).length := by
    by_contra hc
    rw [List.getElem?_eq_none (Nat.le_of_not_lt hc)] at h
    cases h
  have h8 : (notebookSteps adapters).length = 8 := rfl
  rw [h8] at hlt
  interval_cases i <;> simp_all [notebookSteps, runSteps, applyStep]

theorem useCache_false_during_training_witness :
    (runSteps initState ((notebookSteps ["lora_A"]).take 4)).baseUseCache
      = false ∧
    (runSteps initState ((notebookSteps ["lora_A"]).take 4)).wrappedUseCache
      = false :=
  useCache_false_during_training initState ["lora_A"] 4 rfl

/-- Modelled from the spec: the external `save_pretrained` library call of
the Persister (the `peft` serialization code is not part of this
repository).  Per the spec it serializes exactly the adapter parameters to
the output directory, ignoring whatever the directory held before, and
raises no error on collision. -/
def savePretrained (params : List Param)
    (existingDir : Option (List Param)) : Except String (List Param) :=
  Except.ok (params.filter (fun p => p.isAdapter))

/-- C7: the Persister succeeds and writes exactly the adapter parameters
(every written parameter is an adapter parameter of the model, and every
adapter parameter is written — no frozen base weight is written), and its
outcome is independent of any previous content of the output directory:
an existing directory is overwritten silently, with no error raised. -/
theorem savePretrained_only_adapters (params : List Param)
    (existingDir : Option (List Param)) :
    (∃ out, savePretrained params existingDir = Except.ok out ∧
      (∀ p ∈ out, p.isAdapter = true ∧ p ∈ params) ∧
      (∀ p ∈ params, p.isAdapter = true → p ∈ out)) ∧
    (∀ other, savePretrained params other =
      savePretrained params existingDir) := by
  refine ⟨⟨params.filter (fun p => p.isAdapter), rfl, ?_, ?_⟩, fun _ => rfl⟩
  · intro p hp
    have := List.mem_filter.mp hp
    exact ⟨this.2, this.1⟩
  · intro p hp ha
    exact List.mem_filter.mpr ⟨hp, ha⟩

/-- The parameter list after training: one frozen base weight and one
trained adapter weight. -/
def trainedParams : List Param :=
  [⟨"model.layers.0.self_attn.q_proj.weight", false, false⟩,
   ⟨"lora_A", true, true⟩]

theorem savePretrained_only_adapters_witness :
    savePretrained trainedParams
        (some [(⟨"stale.weight", true, true⟩ : Param)]) =
      Except.ok [(⟨"lora_A", true, true⟩ : Param)] ∧
    savePretrained trainedParams none =
      savePretrained trainedParams
        (some [(⟨"stale.weight", true, true⟩ : Param)]) := by
  have h := savePretrained_only_adapters trainedParams
    (some [(⟨"stale.weight", true, true⟩ : Param)])
  exact ⟨rfl, h.2 none⟩

/-- Two strings with the same character data are equal. -/
theorem string_eq_of_data {s t : String} (h : s.data = t.data) : s = t := by
  cases s; cases t; simp_all

/-- String concatenation cancels on the left. -/
theorem append_left_cancel_str {a b c : String} (h : a ++ b = a ++ c) :
    b = c := by
  have hd : (a ++ b).data = (a ++ c).data := by rw [h]
  rw [String.data_append, String.data_append] at hd
  exact string_eq_of_data (List.append_cancel_left hd)

/-- Reconstructing a matching column name from its topic: the output tag
followed by the extracted topic is the original column name. -/
theorem tag_append_removeTag {c : String} (h : matchesOutputCol c = true) :
    outputTag ++ removeTag c = c := by
  unfold matchesOutputCol at h
  rcases List.isPrefixOf_iff_prefix.mp h with ⟨tail, htail⟩
  refine string_eq_of_data ?_
  rw [String.data_append]
  show outputTag.data ++ c.data.drop outputTag.data.length = c.data
  rw [← htail, List.drop_left]

/-- Every detected topic has its output column in the table. -/
theorem getCol_output_isSome {df : DataFrame} {t : String}
    (ht : t ∈ topicsOf df) : (getCol df (outputTag ++ t)).isSome = true := by
  unfold topicsOf at ht
  rcases List.mem_map.mp ht with ⟨c, hc, rfl⟩
  have hfil := List.mem_filter.mp hc
  rw [tag_append_removeTag hfil.2]
  rcases List.mem_map.mp hfil.1 with ⟨pr, hpr, rfl⟩
  unfold getCol
  rw [Option.isSome_map', List.find?_isSome]
  exact ⟨pr, hpr, by simp⟩

/-- A topic whose prompt column is missing makes the builder loop fail. -/
theorem buildTexts_error_of_missing {df : DataFrame} {t : String}
    (hmiss : getCol df (promptTag ++ t) = none) :
    ∀ ts, t ∈ ts → (buildTexts df ts).isOk = false := by
  intro ts
  induction ts with
  | nil => intro h; cases h
  | cons u ts ih =>
    intro hmem
    rcases List.mem_cons.mp hmem with rfl | hmem2
    · unfold buildTexts topicTexts
      rw [hmiss]
      rfl
    · unfold buildTexts
      cases htt : topicTexts df u with
      | error e => rfl
      | ok rows =>
        have hok := ih hmem2
        cases hbt : buildTexts df ts with
        | error e => rfl
        | ok rest => rw [hbt] at hok; cases hok

/-- A successful lookup survives appending a column at the end. -/
theorem getCol_append_some (df : DataFrame) (nm : String)
    (data : List String) (name : String) (xs : List String)
    (h : getCol df name = some xs) :
    getCol ⟨df.cols ++ [(nm, data)]⟩ name = some xs := by
  unfold getCol at h ⊢
  rw [List.find?_append]
  rcases Option.map_eq_some'.mp h with ⟨pr, hpr, hsnd⟩
  rw [hpr]
  simp [hsnd]

/-- A failed lookup still fails after appending a column with a different
name at the end. -/
theorem getCol_append_none (df : DataFrame) (nm : String)
    (data : List String) (name : String) (h : getCol df name = none)
    (hne : (nm == name) = false) :
    getCol ⟨df.cols ++ [(nm, data)]⟩ name = none := by
  unfold getCol at h ⊢
  rw [List.find?_append, Option.map_eq_none'.mp h]
  simp [List.find?, hne]

/-- An appended prompt-only column is invisible to the topic scan. -/
theorem topicsOf_append_promptCol (df : DataFrame) (T : String)
    (data : List String) :
    topicsOf ⟨df.cols ++ [(promptTag ++ T, data)]⟩ = topicsOf df := by
  unfold topicsOf
  simp [List.filter_append, List.filter, matchesOutputCol_promptCol]

/-- An appended prompt-only column for a topic with no output column leaves
every detected topic's row strings unchanged. -/
theorem topicTexts_append_promptCol {df : DataFrame} {T : String}
    {data : List String} (hT : getCol df (outputTag ++ T) = none)
    {t : String} (ht : t ∈ topicsOf df) :
    topicTexts ⟨df.cols ++ [(promptTag ++ T, data)]⟩ t = topicTexts df t := by
  rcases Option.isSome_iff_exists.mp (getCol_output_isSome ht) with ⟨os, hos⟩
  unfold topicTexts
  cases hp : getCol df (promptTag ++ t) with
  | some ps =>
    rw [getCol_append_some df (promptTag ++ T) data (promptTag ++ t) ps hp,
      getCol_append_some df (promptTag ++ T) data (outputTag ++ t) os hos,
      hos]
  | none =>
    have hne : ((promptTag ++ T) == (promptTag ++ t)) = false := by
      rw [beq_eq_false_iff_ne]
      intro heq
      have hTt : T = t := append_left_cancel_str heq
      rw [hTt] at hT
      rw [hT] at hos
      cases hos
    rw [getCol_append_none df (promptTag ++ T) data (promptTag ++ t) hp hne]

/-- An appended prompt-only column for a topic with no output column leaves
the whole builder loop unchanged. -/
theorem buildTexts_append_promptCol {df : DataFrame} {T : String}
    {data : List String} (hT : getCol df (outputTag ++ T) = none) :
    ∀ ts, (∀ t ∈ ts, t ∈ topicsOf df) →
      buildTexts ⟨df.cols ++ [(promptTag ++ T, data)]⟩ ts =
        buildTexts df ts := by
  intro ts
  induction ts with
  | nil => intro _; rfl
  | cons u ts ih =>
    intro hall
    unfold buildTexts
    rw [topicTexts_append_promptCol hT (hall u (List.mem_cons_self u ts)),
      ih (fun t h => hall t (List.mem_cons_of_mem u h))]

/-- C10: the topic scan reads only `inference_output `-tagged columns.
An output column whose topic has no `full_prompt` column makes dataset
construction fail (the prompt lookup raises a `KeyError`), while a
`full_prompt` column whose topic has no output column is silently ignored
and contributes no training examples: appending such a column to any table
leaves the produced flat sequence exactly as it was. -/
theorem topics_scan_asymmetric :
    (∀ df : DataFrame, ∀ t : String, t ∈ topicsOf df →
      getCol df (promptTag ++ t) = none → (fullText df).isOk = false) ∧
    (∀ df : DataFrame, ∀ T : String, ∀ data : List String,
      getCol df (outputTag ++ T) = none →
      fullText ⟨df.cols ++ [(promptTag ++ T, data)]⟩ = fullText df) := by
  constructor
  · intro df t ht hmiss
    exact buildTexts_error_of_missing hmiss (topicsOf df) ht
  · intro df T data hT
    unfold fullText
    rw [topicsOf_append_promptCol df T data]
    exact buildTexts_append_promptCol hT (topicsOf df) (fun t h => h)

/-- A table with an output column whose topic has no prompt column. -/
def dfMissing : DataFrame :=
  ⟨[("inference_output T", ["o1"])]⟩

/-- A well-formed one-topic table. -/
def dfOneTopic : DataFrame :=
  ⟨[("full_prompt Rice", ["p1"]), ("inference_output Rice", ["o1"])]⟩

theorem topics_scan_asymmetric_witness :
    (fullText dfMissing).isOk = false ∧
    fullText ⟨dfOneTopic.cols ++ [(promptTag ++ "X", ["px"])]⟩ =
      fullText dfOneTopic :=
  ⟨topics_scan_asymmetric.1 dfMissing "T" (by decide) (by decide),
   topics_scan_asymmetric.2 dfOneTopic "X" ["px"] (by decide)⟩

end FineTune
